import Mathlib

/-!
# Verification of the Takeout metadata-merge tool

A shallow embedding of the Python sources `aux_functions.py`,
`process_folder.py` and `merge_metadata.py` of the
`photos-takeout-metadata-merge` repository, together with theorems that
settle the frozen claims about its specification.

Modelling conventions:
* The filesystem is a flat association list from absolute path strings to
  file records (`FS`).  Directories are implicit (a directory listing is
  the set of entries whose `dirname` equals the directory); `os.makedirs`
  is therefore a no-op in the model.
* File content is modelled by its byte list (used by the header sniffer),
  an optional parsed JSON value (`none` when `json.load` would raise on
  the content), and filesystem modified/accessed times.
* Machine integers are `Int`/`Nat`; JSON numbers are modelled as integers
  (the claims under study depend only on presence/absence and emptiness
  of the values, never on fractional parts).
* Fallible code returns `Except String`; exceptions that Python code
  swallows locally (for example in `sniff_type` and
  `set_fs_times_fallback`) are modelled by the corresponding fallback
  result instead.
* `exiftool` is an external process; its invocation `run_exiftool` is
  modelled as an oracle parameter of type `ExifRunner` returning the
  result code and combined log, exactly the data the Python wrapper
  returns.  Python string `casefold`/`lower`/`upper` are modelled on
  ASCII, which covers every string the program itself constructs.
-/

set_option maxHeartbeats 1000000

namespace TakeoutMerge

/-! ## Basic character/string helpers (ASCII models of Python primitives) -/

def asciiLowerChar (c : Char) : Char :=
  if 'A' ≤ c ∧ c ≤ 'Z' then Char.ofNat (c.toNat + 32) else c

def asciiUpperChar (c : Char) : Char :=
  if 'a' ≤ c ∧ c ≤ 'z' then Char.ofNat (c.toNat - 32) else c

def asciiLower (s : String) : String := ⟨s.data.map asciiLowerChar⟩

def asciiUpper (s : String) : String := ⟨s.data.map asciiUpperChar⟩

/-- Python `startswith` on character lists (recursing on the candidate
text first, so that concrete headers reduce even over a symbolic
tail). -/
def listPrefixOf : List Char → List Char → Bool
  | [], _ => true
  | a :: as, s =>
    match s with
    | [] => false
    | b :: bs => (a == b) && listPrefixOf as bs

/-- Python whitespace class used by `str.strip` and the regex class. -/
def isPyWs (c : Char) : Bool :=
  c = ' ' ∨ c = '\t' ∨ c = '\n' ∨ c = '\x0d' ∨ c = '\x0b' ∨ c = '\x0c'

def isAsciiDigit (c : Char) : Bool := '0' ≤ c ∧ c ≤ '9'

/-! ## JSON values

The shape of data `json.load` can return.  Numbers are modelled as
integers (see the header comment); object keys keep insertion order and,
like Python dicts built from JSON text, a repeated key keeps its last
binding. -/

inductive Json where
  | null : Json
  | bool : Bool → Json
  | num : Int → Json
  | str : String → Json
  | arr : List Json → Json
  | obj : List (String × Json) → Json

/-! ## Filesystem model -/

/-- A file on disk: its raw bytes (the sniffer reads the first 32), the
JSON value the bytes parse to (`none` when `json.load` raises), and the
filesystem modified/accessed times. -/
structure FSFile where
  bytes : List Nat
  json : Option Json
  mtime : Int
  atime : Int

/-- The filesystem: a flat association of absolute paths to files. -/
abbrev FS := List (String × FSFile)

def lookupFS : FS → String → Option FSFile
  | [], _ => none
  | (q, f) :: rest, p => if q = p then some f else lookupFS rest p

/-- `os.path.exists`, restricted to the files in the model. -/
def pathExists (fs : FS) (p : String) : Bool := (lookupFS fs p).isSome

/-! ## Magic sniffers (`sniff_type`)

The byte signatures from `aux_functions.py`. -/

def PNG_SIG : List Nat := [0x89, 0x50, 0x4e, 0x47, 0x0d, 0x0a, 0x1a, 0x0a]

def TIFF_LE : List Nat := [0x49, 0x49, 0x2a, 0x00]

def TIFF_BE : List Nat := [0x4d, 0x4d, 0x00, 0x2a]

/-- The ASCII bytes of "ftyp". -/
def FTYP : List Nat := [0x66, 0x74, 0x79, 0x70]

def JPEG_SOI : List Nat := [0xff, 0xd8]

/-- Brand codes heic, heix, heif, mif1 (ASCII bytes). -/
def ISO_BRANDS_HEIC : List (List Nat) :=
  [[0x68, 0x65, 0x69, 0x63], [0x68, 0x65, 0x69, 0x78],
   [0x68, 0x65, 0x69, 0x66], [0x6d, 0x69, 0x66, 0x31]]

/-- Brand codes "qt  " and pnot (ASCII bytes). -/
def ISO_BRANDS_MOV : List (List Nat) :=
  [[0x71, 0x74, 0x20, 0x20], [0x70, 0x6e, 0x6f, 0x74]]

/-- Brand codes isom, mp41, mp42, avc1; declared in the source but not
consulted by `sniff_type` (any other ftyp brand defaults to mp4). -/
def ISO_BRANDS_MP4 : List (List Nat) :=
  [[0x69, 0x73, 0x6f, 0x6d], [0x6d, 0x70, 0x34, 0x31],
   [0x6d, 0x70, 0x34, 0x32], [0x61, 0x76, 0x63, 0x31]]

/-- The pure part of `sniff_type`: classify a header that was read.
Python slicing `header[:k]` of a short buffer yields the short buffer,
which is what `List.take` does as well. -/
def sniffBytes (header : List Nat) : Option (String × String) :=
  if header = [] then none
  else if header.take 2 = JPEG_SOI then some ("jpeg", "jpg")
  else if header.take 8 = PNG_SIG then some ("png", "png")
  else if header.take 4 = TIFF_LE ∨ header.take 4 = TIFF_BE then some ("tiff", "tif")
  else if 12 ≤ header.length ∧ (header.drop 4).take 4 = FTYP then
    let brand := (header.drop 8).take 4
    if brand ∈ ISO_BRANDS_HEIC then some ("heic", "heic")
    else if brand ∈ ISO_BRANDS_MOV then some ("mov", "mov")
    else some ("mp4", "mp4")
  else none

/-- `sniff_type(path)`: open and read up to 32 bytes, swallowing any I/O
error (an unreadable/missing path yields `none`), then classify. -/
def sniff_type (fs : FS) (path : String) : Option (String × String) :=
  match lookupFS fs path with
  | none => none
  | some f => sniffBytes (f.bytes.take 32)

/-! ## Claim C8: the content sniffer is total -/

/-- A header is recognized when it is nonempty and matches one of the
signature conditions `sniff_type` tests (JPEG start-of-image, PNG
signature, TIFF byte-order marks, or an ISO `ftyp` box at offset 4 with
at least 12 bytes present). -/
def recognizedHeader (h : List Nat) : Prop :=
  h ≠ [] ∧
    (h.take 2 = JPEG_SOI ∨ h.take 8 = PNG_SIG ∨
      h.take 4 = TIFF_LE ∨ h.take 4 = TIFF_BE ∨
      (12 ≤ h.length ∧ (h.drop 4).take 4 = FTYP))

/-- C8: the content sniffer is total: for every path it never raises
(totality is by construction of `sniff_type`); it returns `none` on an
unreadable path (`lookupFS` misses; the I/O error is swallowed), on an
empty file, on a truncated file of fewer than 2 bytes, and on any
unrecognized header. -/
theorem C8_sniffer_total :
    (∀ fs p, lookupFS fs p = none → sniff_type fs p = none) ∧
    (∀ fs p f, lookupFS fs p = some f → f.bytes = [] → sniff_type fs p = none) ∧
    (∀ fs p f b, lookupFS fs p = some f → f.bytes = [b] → sniff_type fs p = none) ∧
    (∀ h, sniffBytes h = none ↔ ¬ recognizedHeader h) := by
  refine ⟨?_, ?_, ?_, ?_⟩
  · intro fs p hmiss
    simp [sniff_type, hmiss]
  · intro fs p f hhit hempty
    simp [sniff_type, hhit, hempty, sniffBytes]
  · intro fs p f b hhit hone
    simp only [sniff_type, hhit, hone]
    simp [sniffBytes, JPEG_SOI, PNG_SIG, TIFF_LE, TIFF_BE, FTYP, List.take]
  · intro h
    unfold sniffBytes
    by_cases h0 : h = [] <;>
      by_cases h1 : h.take 2 = JPEG_SOI <;>
        by_cases h2 : h.take 8 = PNG_SIG <;>
          by_cases h3 : h.take 4 = TIFF_LE ∨ h.take 4 = TIFF_BE <;>
            by_cases h4 : 12 ≤ h.length ∧ (h.drop 4).take 4 = FTYP <;>
              by_cases hb1 : (h.drop 8).take 4 ∈ ISO_BRANDS_HEIC <;>
                by_cases hb2 : (h.drop 8).take 4 ∈ ISO_BRANDS_MOV <;>
                  simp [recognizedHeader, h0, h1, h2, h3, h4, hb1, hb2]

/-- Witness for C8 at concrete inputs: a missing path, an empty file, a
single-byte file, and an unrecognized 4-byte header. -/
theorem C8_sniffer_total_witness :
    sniff_type [] "/a/missing.bin" = none ∧
    sniff_type [("/a/empty", ⟨[], none, 0, 0⟩)] "/a/empty" = none ∧
    sniff_type [("/a/one", ⟨[7], none, 0, 0⟩)] "/a/one" = none ∧
    sniffBytes [1, 2, 3, 4] = none :=
  ⟨C8_sniffer_total.1 [] "/a/missing.bin" rfl,
   C8_sniffer_total.2.1 [("/a/empty", ⟨[], none, 0, 0⟩)] "/a/empty" ⟨[], none, 0, 0⟩
     rfl rfl,
   C8_sniffer_total.2.2.1 [("/a/one", ⟨[7], none, 0, 0⟩)] "/a/one" ⟨[7], none, 0, 0⟩ 7
     rfl rfl,
   (C8_sniffer_total.2.2.2 [1, 2, 3, 4]).mpr
     (by simp [recognizedHeader, JPEG_SOI, PNG_SIG, TIFF_LE, TIFF_BE, FTYP])⟩

/-! ## Path helpers (posixpath semantics) -/

/-- `os.path.basename`: the part after the last slash. -/
def basename (s : String) : String := ⟨(s.data.reverse.takeWhile (· ≠ '/')).reverse⟩

/-- `os.path.dirname`: everything up to the last slash, with trailing
slashes stripped unless the result consists only of slashes. -/
def dirname (s : String) : String :=
  let head := (s.data.reverse.dropWhile (· ≠ '/')).reverse
  if head.any (· ≠ '/') then ⟨(head.reverse.dropWhile (· = '/')).reverse⟩ else ⟨head⟩

/-- `os.path.join` for two components. -/
def joinPath (a b : String) : String :=
  if b.data.head? = some '/' then b
  else if a = "" ∨ a.data.getLast? = some '/' then a ++ b
  else a ++ "/" ++ b

/-- `os.path.splitext`: split at the last dot of the basename, provided a
non-dot character precedes it within the basename. -/
def splitext (s : String) : String × String :=
  let rev := s.data.reverse
  let revBase := rev.takeWhile (· ≠ '/')
  let head := (rev.dropWhile (· ≠ '/')).reverse
  let afterRev := revBase.takeWhile (· ≠ '.')
  match revBase.dropWhile (· ≠ '.') with
  | [] => (s, "")
  | _ :: preRev =>
    if preRev.any (· ≠ '.') then
      (⟨head ++ preRev.reverse⟩, ⟨'.' :: afterRev.reverse⟩)
    else (s, "")

/-! ## Name normalization (`fix_title`, `strip_json_suffix`,
`sanitize_json_title`) -/

/-- The denylist of characters `fix_title` removes (braces, the double
quote, the apostrophe and the inverted question mark written by code
point). -/
def TITLE_BAD_CHARS : List Char :=
  ['%', '<', '>', '=', ':', '?', Char.ofNat 191, '*', '#', '&',
   Char.ofNat 123, Char.ofNat 125, '\n', '@', '!', '+', '\n',
   Char.ofNat 34, Char.ofNat 39]

/-- State of the whitespace-run collapser: in normal text, holding one
undecided whitespace character, or inside a run whose single space was
already emitted. -/
inductive WsState where
  | normal : WsState
  | pending : Char → WsState
  | run : WsState

/-- One-pass state machine for the regex replacement of every run of two
or more whitespace characters by a single space; a lone whitespace
character is kept as it is. -/
def collapseWsAux : WsState → List Char → List Char
  | .normal, [] => []
  | .pending c, [] => [c]
  | .run, [] => []
  | .normal, x :: rest =>
    if isPyWs x then collapseWsAux (.pending x) rest
    else x :: collapseWsAux .normal rest
  | .pending c, x :: rest =>
    if isPyWs x then ' ' :: collapseWsAux .run rest
    else c :: x :: collapseWsAux .normal rest
  | .run, x :: rest =>
    if isPyWs x then collapseWsAux .run rest
    else x :: collapseWsAux .normal rest

def collapseWsRuns (l : List Char) : List Char := collapseWsAux .normal l

/-- The regex replacement of every run of dots by a single dot.  The
flag records whether we are already inside a run of dots. -/
def collapseDotAux : Bool → List Char → List Char
  | _, [] => []
  | inRun, c :: rest =>
    if c = '.' then
      (if inRun then [] else ['.']) ++ collapseDotAux true rest
    else c :: collapseDotAux false rest

def collapseDotRuns (l : List Char) : List Char := collapseDotAux false l

/-- Python `str.strip()`. -/
def pyStrip (l : List Char) : List Char :=
  ((l.dropWhile isPyWs).reverse.dropWhile isPyWs).reverse

/-- `fix_title`: remove the denylisted characters, collapse whitespace
runs, and strip. -/
def fix_title (title : String) : String :=
  let cleaned := title.data.filter (fun c => !(TITLE_BAD_CHARS.contains c))
  ⟨pyStrip (collapseWsRuns cleaned)⟩

/-- If the list ends with a duplicate counter of the shape left paren,
one or more digits, right paren, return it with the counter removed. -/
def dropCounterSuffix (l : List Char) : Option (List Char) :=
  match l.reverse with
  | ')' :: rest =>
    match rest.takeWhile isAsciiDigit, rest.dropWhile isAsciiDigit with
    | [], _ => none
    | _ :: _, '(' :: before => some before.reverse
    | _, _ => none
  | _ => none

/-- The sidecar suffix words of SIDE_SUFFIX_RE, in the alternation order
of the regex. -/
def SIDE_SUFFIX_WORDS : List String :=
  [".supplemental-metadata", ".supp-metadata", ".suppl", ".supp"]

/-- Drop a case-insensitive suffix `w` (given lowercase) from `l`. -/
def dropSuffixCI (l : List Char) (w : String) : Option (List Char) :=
  let n := w.data.length
  if n ≤ l.length ∧ (l.map asciiLowerChar).drop (l.length - n) = w.data then
    some (l.take (l.length - n))
  else none

/-- `strip_json_suffix`: remove a trailing sidecar suffix, optionally
followed by a duplicate counter, matching SIDE_SUFFIX_RE
case-insensitively.  Because the regex is anchored at the end and the
suffix words end in letters, a match is exactly: an optional trailing
counter preceded by one of the suffix words. -/
def strip_json_suffix (base : String) : String :=
  let l := base.data
  let core := (dropCounterSuffix l).getD l
  match SIDE_SUFFIX_WORDS.findSome? (dropSuffixCI core) with
  | some kept => ⟨kept⟩
  | none => base

def rstripDots (l : List Char) : List Char := (l.reverse.dropWhile (· = '.')).reverse

/-- `sanitize_json_title`: fix the title, strip sidecar suffixes,
collapse consecutive dots, and strip trailing dots. -/
def sanitize_json_title (base : String) : String :=
  let s := strip_json_suffix (fix_title base)
  ⟨rstripDots (collapseDotRuns s.data)⟩

/-! ## Directory listings and the media resolver (`search_media`) -/

/-- `os.scandir`, restricted to files: the entries of the flat filesystem
directly inside `folder`, as (name, path, file) triples in filesystem
order. -/
def scandirFS (fs : FS) (folder : String) : List (String × String × FSFile) :=
  fs.filterMap (fun e =>
    if dirname e.1 = folder then some (basename e.1, e.1, e.2) else none)

/-- Python dict lookup for a dict built by successive insertion from an
association list: the last binding of a key wins. -/
def lookupLastStr : List (String × String) → String → Option String
  | [], _ => none
  | (k, v) :: rest, q =>
    match lookupLastStr rest q with
    | some r => some r
    | none => if k = q then some v else none

/-- The known media extensions tried by the resolver, in priority
order. -/
def MEDIA_EXTS : List String :=
  ["heic", "jpg", "jpeg", "png", "tif", "tiff", "mov", "mp4", "m4v"]

/-- The media kinds accepted by the final prefix-scan phase. -/
def SNIFF_KINDS : List String := ["jpeg", "png", "tiff", "heic", "mov", "mp4"]

/-- The filename variants generated for one stem and one extension:
plain, the four edited-suffix forms, and duplicate counters 1 to 20 in
both spellings. -/
def add_variants (edited_word stem ext : String) : List String :=
  let dotext := "." ++ ext
  [stem ++ dotext,
   stem ++ "-" ++ edited_word ++ dotext,
   stem ++ "-" ++ asciiUpper edited_word ++ dotext,
   stem ++ " - " ++ edited_word ++ dotext,
   stem ++ " (" ++ edited_word ++ ")" ++ dotext,
   stem ++ "(1)" ++ dotext,
   stem ++ " (1)" ++ dotext] ++
  (List.range' 2 19).flatMap (fun n =>
    [stem ++ "(" ++ toString n ++ ")" ++ dotext,
     stem ++ " (" ++ toString n ++ ")" ++ dotext])

/-- `search_media`: the layered resolver.  Phase one checks every
candidate for exact existence; phase two consults a case-folded
directory map (Python `casefold` modelled as ASCII lowercasing); phase
three scans the directory for a name starting with the case-folded stem
whose sniffed kind is a recognized media kind. -/
def search_media (fs : FS) (path title0 edited_word : String) : Option String :=
  let title := sanitize_json_title title0
  let (file_name, json_ext) := splitext title
  let candidates :=
    MEDIA_EXTS.flatMap (add_variants edited_word file_name) ++
    (if json_ext ≠ "" ∧ ¬ MEDIA_EXTS.contains (asciiLower ⟨json_ext.data.drop 1⟩) then
      MEDIA_EXTS.flatMap (add_variants edited_word title) else [])
  match candidates.find? (fun cand => pathExists fs (joinPath path cand)) with
  | some cand => some (joinPath path cand)
  | none =>
    let entries := scandirFS fs path
    let emap := entries.map (fun e => (asciiLower e.1, e.2.1))
    match candidates.findSome? (fun cand => lookupLastStr emap (asciiLower cand)) with
    | some p => some p
    | none =>
      let base_cf := asciiLower file_name
      (entries.find? (fun e =>
        listPrefixOf base_cf.data (asciiLower e.1).data &&
          (match sniff_type fs e.2.1 with
           | some (k, _) => SNIFF_KINDS.contains k
           | none => false))).map (fun e => e.2.1)

/-! ## Concrete media byte headers used in scenarios -/

def jpegBytes : List Nat := [0xff, 0xd8, 0xff, 0xe0, 0x00, 0x10]

def pngBytes : List Nat := PNG_SIG ++ [0x00, 0x00, 0x00, 0x0d]

/-- A QuickTime container header: size, ftyp, brand "qt  ". -/
def movBytes : List Nat :=
  [0x00, 0x00, 0x00, 0x14] ++ FTYP ++ [0x71, 0x74, 0x20, 0x20]

/-! ## Claim C9: the resolver locates edited variants -/

def fsC9 : FS := [("/album/IMG_2-edited.jpg", ⟨jpegBytes, none, 0, 0⟩)]

/-- C9: in a directory containing only `IMG_2-edited.jpg`, resolving the
title `IMG_2.jpg` with the default edited word returns that file (the
candidate list contains the edited-suffix form for every extension in
the priority list, and the exact-existence phase finds it). -/
theorem C9_resolver_edited :
    search_media fsC9 "/album" "IMG_2.jpg" "edited" = some "/album/IMG_2-edited.jpg" := by
  decide

/-! ## Relative paths (`os.path.relpath`, posix semantics)

The model splits both paths into components, drops empty and
single-dot components (the normalization `abspath` performs), and walks
up with dot-dot entries; inputs are taken as rooted at a common origin
and are assumed not to contain dot-dot components themselves. -/

def splitSlash : List Char → List (List Char)
  | [] => [[]]
  | c :: rest =>
    match splitSlash rest with
    | [] => [[c]]
    | h :: t => if c = '/' then [] :: h :: t else (c :: h) :: t

def pathComponents (s : String) : List String :=
  ((splitSlash s.data).map (fun l => (⟨l⟩ : String))).filter
    (fun x => !(x == "") && !(x == "."))

def commonPrefixLen : List String → List String → Nat
  | a :: as, b :: bs => if a = b then commonPrefixLen as bs + 1 else 0
  | _, _ => 0

def sIntercalate (sep : String) : List String → String
  | [] => ""
  | [x] => x
  | x :: y :: rest => x ++ sep ++ sIntercalate sep (y :: rest)

def relpath (path start : String) : String :=
  let p := pathComponents path
  let st := pathComponents start
  let i := commonPrefixLen p st
  let rel := List.replicate (st.length - i) ".." ++ p.drop i
  if rel = [] then "." else sIntercalate "/" rel

/-! ## `collapse_extensions`

The source strips extensions in a loop until `splitext` finds none,
remembering the innermost nonempty extension.  Each successful split
strictly shortens the base (`splitext_shrink`), so fuel one larger than
the string length always suffices (`collapseExtAux_stable`). -/

def collapseExtAux : Nat → String → String → String × String
  | 0, base, last_ext => (base, last_ext)
  | fuel + 1, base, last_ext =>
    if (splitext base).2 ≠ "" then
      collapseExtAux fuel (splitext base).1 (splitext base).2
    else (base, last_ext)

def collapse_extensions (name : String) : String × String :=
  collapseExtAux (name.data.length + 1) name ""

theorem splitext_shrink (s : String) (h : (splitext s).2 ≠ "") :
    (splitext s).1.data.length < s.data.length := by
  unfold splitext at *
  have hsplit :
      (s.data.reverse.takeWhile (· ≠ '/')).takeWhile (· ≠ '.') ++
        (s.data.reverse.takeWhile (· ≠ '/')).dropWhile (· ≠ '.') =
        s.data.reverse.takeWhile (· ≠ '/') :=
    List.takeWhile_append_dropWhile _ _
  have hsplit2 :
      s.data.reverse.takeWhile (· ≠ '/') ++ s.data.reverse.dropWhile (· ≠ '/') =
        s.data.reverse :=
    List.takeWhile_append_dropWhile _ _
  rcases hm : (s.data.reverse.takeWhile (· ≠ '/')).dropWhile (· ≠ '.') with _ | ⟨x, preRev⟩
  · simp only [hm] at h
    simp at h
  · simp only [hm] at h ⊢
    by_cases hp : preRev.any (· ≠ '.')
    · simp only [hp, if_true]
      have h1 := congrArg List.length hsplit
      have h2 := congrArg List.length hsplit2
      rw [hm] at h1
      simp only [List.length_append, List.length_cons, List.length_reverse] at h1 h2 ⊢
      omega
    · simp only [hp] at h
      simp at h

theorem collapseExtAux_stable (fuel fuel' : Nat) (base e : String)
    (h : base.data.length < fuel) (h' : base.data.length < fuel') :
    collapseExtAux fuel base e = collapseExtAux fuel' base e := by
  induction fuel generalizing fuel' base e with
  | zero => omega
  | succ n ih =>
    cases fuel' with
    | zero => omega
    | succ m =>
      simp only [collapseExtAux]
      by_cases he : (splitext base).2 ≠ ""
      · rw [if_pos he, if_pos he]
        have hb := splitext_shrink base he
        exact ih m (splitext base).1 (splitext base).2 (by omega) (by omega)
      · rw [if_neg he, if_neg he]

/-! ## The output placer (`compute_normalized_output`,
`copy_media_to_output`) -/

/-- The candidate name tried for counter `n` on a collision. -/
def collisionName (stem ext : String) (n : Nat) : String :=
  stem ++ "(" ++ toString n ++ ")" ++ ext

/-- The collision loop: starting at counter `n`, return the first
candidate that does not exist.  The loop in the source is unbounded;
fuel one larger than the number of files always finds a free name
(`findFreeAux_free`), so the zero-fuel case is unreachable. -/
def findFreeAux (fs : FS) (out_dir stem ext : String) : Nat → Nat → String
  | 0, n => joinPath out_dir (collisionName stem ext n)
  | fuel + 1, n =>
    let candidate := joinPath out_dir (collisionName stem ext n)
    if pathExists fs candidate then findFreeAux fs out_dir stem ext fuel (n + 1)
    else candidate

/-- The collision-avoidance tail of `compute_normalized_output`: keep
the desired name if it is free, otherwise run the counter loop. -/
def resolveCollision (fs : FS) (out_dir desired_name : String) : String :=
  if pathExists fs (joinPath out_dir desired_name) then
    findFreeAux fs out_dir (splitext desired_name).1 (splitext desired_name).2
      (fs.length + 1) 1
  else joinPath out_dir desired_name

/-- `compute_normalized_output`: mirror the relative source directory
under the output root, name the file by its collapsed base and its
sniffed (or lowercased original) extension, and on collision append the
first free numeric counter.  `os.makedirs` is a no-op in the flat
model. -/
def compute_normalized_output (fs : FS) (root_folder out_folder media_path : String) :
    String :=
  let src_dir := dirname media_path
  let rel_dir := relpath src_dir root_folder
  let base_name := basename media_path
  let be := collapse_extensions base_name
  let target_ext :=
    match sniff_type fs media_path with
    | some ke => ke.2
    | none => if be.2 ≠ "" then asciiLower ⟨be.2.data.drop 1⟩ else ""
  let desired_name := if target_ext ≠ "" then be.1 ++ "." ++ target_ext else be.1
  let out_dir := joinPath out_folder rel_dir
  resolveCollision fs out_dir desired_name

/-- `shutil.copy2`: copy bytes and file times; raises when the source
does not exist. -/
def shutil_copy2 (fs : FS) (src dst : String) : Except String FS :=
  match lookupFS fs src with
  | none => .error ("FileNotFoundError: " ++ src)
  | some f => .ok ((dst, f) :: fs)

/-- `copy_media_to_output`: compute the normalized destination and copy
unless the destination already exists. -/
def copy_media_to_output (fs : FS) (root_folder out_folder media_path : String) :
    Except String (String × FS) :=
  let dst := compute_normalized_output fs root_folder out_folder media_path
  if pathExists fs dst then .ok (dst, fs)
  else (shutil_copy2 fs media_path dst).map (fun fs2 => (dst, fs2))

/-! ## Decimal printing is injective

`collisionName` embeds `toString n`; to know that distinct counters give
distinct candidate names we prove that the decimal printer of `Nat` is
injective, via a big-endian reference digit function. -/

/-- Reference big-endian decimal digits of a natural number. -/
def digitsBE (n : Nat) : List Char :=
  if _h : n < 10 then [Nat.digitChar n]
  else digitsBE (n / 10) ++ [Nat.digitChar (n % 10)]
termination_by n
decreasing_by exact Nat.div_lt_self (by omega) (by omega)

theorem toDigitsCore_eq_digitsBE (fuel : Nat) :
    ∀ (n : Nat) (ds : List Char), n < fuel →
      Nat.toDigitsCore 10 fuel n ds = digitsBE n ++ ds := by
  induction fuel with
  | zero => intro n ds h; omega
  | succ f ih =>
    intro n ds h
    rw [Nat.toDigitsCore]
    by_cases hz : n / 10 = 0
    · rw [if_pos hz]
      have hn : n < 10 := by omega
      rw [digitsBE, dif_pos hn, Nat.mod_eq_of_lt hn]
      rfl
    · rw [if_neg hz]
      have hn : ¬ n < 10 := by omega
      have hdiv : n / 10 < n := Nat.div_lt_self (by omega) (by omega)
      rw [ih (n / 10) _ (by omega)]
      conv_rhs => rw [digitsBE]
      rw [dif_neg hn, List.append_assoc]
      rfl

theorem toDigits_eq_digitsBE (n : Nat) : Nat.toDigits 10 n = digitsBE n := by
  rw [Nat.toDigits, toDigitsCore_eq_digitsBE (n + 1) n [] (Nat.lt_succ_self n),
    List.append_nil]

/-- The value read back from big-endian decimal digit characters. -/
def valBE (l : List Char) : Nat := l.foldl (fun a c => a * 10 + (c.toNat - 48)) 0

theorem valBE_append_single (l : List Char) (c : Char) :
    valBE (l ++ [c]) = valBE l * 10 + (c.toNat - 48) := by
  simp [valBE, List.foldl_append]

theorem digitChar_toNat (d : Nat) (h : d < 10) : (Nat.digitChar d).toNat = 48 + d := by
  interval_cases d <;> rfl

theorem valBE_digitsBE (n : Nat) : valBE (digitsBE n) = n := by
  induction n using Nat.strong_induction_on with
  | _ n ih =>
    by_cases h : n < 10
    · rw [digitsBE, dif_pos h]
      simp [valBE, digitChar_toNat n h]
    · rw [digitsBE, dif_neg h]
      have hdiv : n / 10 < n := Nat.div_lt_self (by omega) (by omega)
      have hmod : n % 10 < 10 := Nat.mod_lt n (by omega)
      rw [valBE_append_single, ih (n / 10) hdiv, digitChar_toNat _ hmod]
      omega

theorem natRepr_inj (m n : Nat) (h : Nat.repr m = Nat.repr n) : m = n := by
  have h2 : Nat.toDigits 10 m = Nat.toDigits 10 n := by
    have h1 := congrArg String.data h
    simpa [Nat.repr, List.asString] using h1
  rw [toDigits_eq_digitsBE, toDigits_eq_digitsBE] at h2
  have h3 := congrArg valBE h2
  rwa [valBE_digitsBE, valBE_digitsBE] at h3

/-! ## Injectivity of the collision candidate paths -/

theorem data_append (a b : String) : (a ++ b).data = a.data ++ b.data := rfl

theorem string_data_inj {a b : String} (h : a.data = b.data) : a = b := by
  cases a
  cases b
  exact congrArg String.mk h

theorem string_append_left_cancel {a b c : String} (h : a ++ b = a ++ c) : b = c := by
  apply string_data_inj
  have h1 := congrArg String.data h
  rw [data_append, data_append] at h1
  exact List.append_cancel_left h1

theorem string_append_right_cancel {a b c : String} (h : a ++ c = b ++ c) : a = b := by
  apply string_data_inj
  have h1 := congrArg String.data h
  rw [data_append, data_append] at h1
  exact List.append_cancel_right h1

theorem collisionName_inj (stem ext : String) (m n : Nat)
    (h : collisionName stem ext m = collisionName stem ext n) : m = n := by
  unfold collisionName at h
  have h1 := string_append_right_cancel h
  have h2 := string_append_right_cancel h1
  have h3 := string_append_left_cancel h2
  exact natRepr_inj m n h3

theorem head?_append_cons (l : List Char) (x : Char) (u v : List Char) :
    (l ++ x :: u).head? = (l ++ x :: v).head? := by
  cases l <;> simp

theorem collisionName_data (stem ext : String) (n : Nat) :
    (collisionName stem ext n).data =
      stem.data ++ ('(' :: ((toString n).data ++ (')' :: ext.data))) := by
  have hop : "(".data = ['('] := rfl
  have hcl : ")".data = [')'] := rfl
  simp [collisionName, data_append, hop, hcl]

theorem collisionName_head? (stem ext : String) (m n : Nat) :
    (collisionName stem ext m).data.head? = (collisionName stem ext n).data.head? := by
  rw [collisionName_data, collisionName_data]
  exact head?_append_cons _ _ _ _

theorem joinPath_inj_right (d : String) {b c : String}
    (hb : b.data.head? = c.data.head?) (h : joinPath d b = joinPath d c) : b = c := by
  unfold joinPath at h
  by_cases h1 : b.data.head? = some '/'
  · have h2 : c.data.head? = some '/' := by rw [← hb]; exact h1
    rwa [if_pos h1, if_pos h2] at h
  · have h2 : ¬ c.data.head? = some '/' := by rw [← hb]; exact h1
    rw [if_neg h1, if_neg h2] at h
    by_cases hd : d = "" ∨ d.data.getLast? = some '/'
    · rw [if_pos hd, if_pos hd] at h
      exact string_append_left_cancel h
    · rw [if_neg hd, if_neg hd] at h
      exact string_append_left_cancel h

theorem collisionPath_inj (out_dir stem ext : String) (m n : Nat)
    (h : joinPath out_dir (collisionName stem ext m) =
      joinPath out_dir (collisionName stem ext n)) : m = n :=
  collisionName_inj stem ext m n
    (joinPath_inj_right out_dir (collisionName_head? stem ext m n) h)

/-! ## The collision loop always finds a free name -/

theorem length_filter_mono {α : Type} (l : List α) (p q : α → Bool)
    (hpq : ∀ a, q a = true → p a = true) :
    (l.filter q).length ≤ (l.filter p).length := by
  induction l with
  | nil => simp
  | cons x t ih =>
    simp only [List.filter_cons]
    by_cases hq : q x = true
    · rw [if_pos hq, if_pos (hpq x hq)]
      simpa using ih
    · rw [if_neg hq]
      by_cases hp : p x = true
      · rw [if_pos hp]
        simp only [List.length_cons]
        omega
      · rw [if_neg hp]
        exact ih

theorem length_filter_lt {α : Type} (l : List α) (p q : α → Bool)
    (hpq : ∀ a, q a = true → p a = true) (a : α) (ha : a ∈ l)
    (hpa : p a = true) (hqa : q a = false) :
    (l.filter q).length < (l.filter p).length := by
  induction l with
  | nil => cases ha
  | cons x t ih =>
    rcases List.mem_cons.mp ha with rfl | hmem
    · simp only [List.filter_cons, hpa, if_true, hqa]
      have hmono := length_filter_mono t p q hpq
      simp only [Bool.false_eq_true, if_false, List.length_cons]
      omega
    · simp only [List.filter_cons]
      by_cases hq : q x = true
      · rw [if_pos hq, if_pos (hpq x hq)]
        simp only [List.length_cons]
        have := ih hmem
        omega
      · rw [if_neg hq]
        by_cases hp : p x = true
        · rw [if_pos hp]
          simp only [List.length_cons]
          have := ih hmem
          omega
        · rw [if_neg hp]
          exact ih hmem

theorem lookupFS_mem (fs : FS) (p : String) (f : FSFile)
    (h : lookupFS fs p = some f) : (p, f) ∈ fs := by
  induction fs with
  | nil => cases h
  | cons e t ih =>
    obtain ⟨q, g⟩ := e
    simp only [lookupFS] at h
    by_cases hq : q = p
    · rw [if_pos hq] at h
      cases h
      subst hq
      exact List.mem_cons_self _ _
    · rw [if_neg hq] at h
      exact List.mem_cons_of_mem _ (ih h)

theorem pathExists_iff (fs : FS) (p : String) :
    pathExists fs p = true ↔ ∃ f, lookupFS fs p = some f := by
  simp [pathExists, Option.isSome_iff_exists]

/-- Membership of a path among the next `fuel` collision candidates
starting at counter `n`. -/
def candIn (out_dir stem ext : String) : Nat → Nat → String → Bool
  | _, 0, _ => false
  | n, fuel + 1, p =>
    (p == joinPath out_dir (collisionName stem ext n)) ||
      candIn out_dir stem ext (n + 1) fuel p

theorem candIn_iff (out_dir stem ext : String) (n fuel : Nat) (p : String) :
    candIn out_dir stem ext n fuel p = true ↔
      ∃ k, n ≤ k ∧ k < n + fuel ∧ p = joinPath out_dir (collisionName stem ext k) := by
  induction fuel generalizing n with
  | zero =>
    simp only [candIn]
    constructor
    · intro h
      simp at h
    · rintro ⟨k, hk1, hk2, _⟩
      omega
  | succ f ih =>
    simp only [candIn, Bool.or_eq_true, beq_iff_eq, ih (n + 1)]
    constructor
    · rintro (rfl | ⟨k, hk1, hk2, hk3⟩)
      · exact ⟨n, le_refl _, by omega, rfl⟩
      · exact ⟨k, by omega, by omega, hk3⟩
    · rintro ⟨k, hk1, hk2, hk3⟩
      by_cases hkn : k = n
      · subst hkn
        exact Or.inl hk3
      · exact Or.inr ⟨k, by omega, by omega, hk3⟩

theorem findFreeAux_free (fs : FS) (out_dir stem ext : String) :
    ∀ (fuel n : Nat),
      (fs.filter (fun e => candIn out_dir stem ext n fuel e.1)).length < fuel →
      pathExists fs (findFreeAux fs out_dir stem ext fuel n) = false := by
  intro fuel
  induction fuel with
  | zero => intro n h; omega
  | succ f ih =>
    intro n h
    rw [findFreeAux]
    by_cases hex : pathExists fs (joinPath out_dir (collisionName stem ext n)) = true
    · rw [if_pos hex]
      apply ih (n + 1)
      obtain ⟨g, hg⟩ := (pathExists_iff _ _).mp hex
      have hmem := lookupFS_mem _ _ _ hg
      have hlt := length_filter_lt fs
        (fun e => candIn out_dir stem ext n (f + 1) e.1)
        (fun e => candIn out_dir stem ext (n + 1) f e.1)
        (fun e he => by
          rcases (candIn_iff _ _ _ _ _ _).mp he with ⟨k, hk1, hk2, hk3⟩
          exact (candIn_iff _ _ _ _ _ _).mpr ⟨k, by omega, by omega, hk3⟩)
        (joinPath out_dir (collisionName stem ext n), g) hmem
        ((candIn_iff _ _ _ _ _ _).mpr ⟨n, le_refl n, by omega, rfl⟩)
        (by
          rw [Bool.eq_false_iff]
          intro hc
          rcases (candIn_iff _ _ _ _ _ _).mp hc with ⟨k, hk1, hk2, hk3⟩
          have := collisionPath_inj out_dir stem ext n k hk3
          omega)
      omega
    · rw [if_neg hex]
      exact Bool.eq_false_iff.mpr hex

/-- Fuel one past the file count always suffices. -/
theorem findFreeAux_free_simple (fs : FS) (out_dir stem ext : String) :
    pathExists fs (findFreeAux fs out_dir stem ext (fs.length + 1) 1) = false := by
  apply findFreeAux_free
  have hle := List.length_filter_le
    (fun e => candIn out_dir stem ext 1 (fs.length + 1) e.1) fs
  omega

/-- The destination computed by `compute_normalized_output` never
already exists: either the desired name is free, or the collision loop
returns the first free counter. -/
theorem resolveCollision_fresh (fs : FS) (out_dir desired : String) :
    pathExists fs (resolveCollision fs out_dir desired) = false := by
  unfold resolveCollision
  by_cases hc : pathExists fs (joinPath out_dir desired) = true
  · rw [if_pos hc]
    exact findFreeAux_free_simple fs _ _ _
  · rw [if_neg hc]
    exact Bool.eq_false_iff.mpr hc

theorem compute_fresh (fs : FS) (root out media : String) :
    pathExists fs (compute_normalized_output fs root out media) = false := by
  simp only [compute_normalized_output]
  exact resolveCollision_fresh fs _ _

/-- A successful copy went to a previously nonexistent destination and
prepended the source file under that destination. -/
theorem copy_ok_shape (fs : FS) (root out media d : String) (fs2 : FS)
    (h : copy_media_to_output fs root out media = .ok (d, fs2)) :
    pathExists fs d = false ∧
      ∃ f, lookupFS fs media = some f ∧ fs2 = (d, f) :: fs := by
  unfold copy_media_to_output at h
  have hfresh := compute_fresh fs root out media
  rw [if_neg (by rw [hfresh]; simp)] at h
  unfold shutil_copy2 at h
  cases hsrc : lookupFS fs media with
  | none =>
    rw [hsrc] at h
    simp [Except.map] at h
  | some f =>
    rw [hsrc] at h
    simp only [Except.map] at h
    cases h
    exact ⟨hfresh, f, rfl, rfl⟩

/-! ## Claim C7: destination names never collide -/

/-- C7: placing two source files one after the other always yields two
distinct destination paths, and no existing destination entry is ever
overwritten by either copy (the collision loop appends the first free
numeric counter). -/
theorem C7_destinations_never_collide (fs : FS) (root out m1 m2 d1 : String)
    (fs1 : FS) (d2 : String) (fs2 : FS)
    (h1 : copy_media_to_output fs root out m1 = .ok (d1, fs1))
    (h2 : copy_media_to_output fs1 root out m2 = .ok (d2, fs2)) :
    d1 ≠ d2 ∧
      (∀ p, pathExists fs1 p = true → lookupFS fs2 p = lookupFS fs1 p) ∧
      (∀ p, pathExists fs p = true → lookupFS fs1 p = lookupFS fs p) := by
  obtain ⟨hfresh1, f1, hsrc1, rfl⟩ := copy_ok_shape _ _ _ _ _ _ h1
  obtain ⟨hfresh2, f2, hsrc2, rfl⟩ := copy_ok_shape _ _ _ _ _ _ h2
  refine ⟨?_, ?_, ?_⟩
  · intro hdd
    rw [← hdd] at hfresh2
    simp [pathExists, lookupFS] at hfresh2
  · intro p hp
    have hne : ¬ d2 = p := by
      intro he
      rw [he] at hfresh2
      rw [hp] at hfresh2
      cases hfresh2
    simp [lookupFS, hne]
  · intro p hp
    have hne : ¬ d1 = p := by
      intro he
      rw [he] at hfresh1
      rw [hp] at hfresh1
      cases hfresh1
    simp [lookupFS, hne]

def fileJpegA : FSFile := ⟨jpegBytes, none, 100, 100⟩

def fileJpegB : FSFile := ⟨jpegBytes ++ [0x01], none, 200, 200⟩

/-- Two different sources whose names normalize to the same destination
name: a jpg and a jpeg with the same stem, both sniffed as JPEG. -/
def fsC7 : FS :=
  [("/src/a/x.jpg", fileJpegA), ("/src/a/x.jpeg", fileJpegB)]

def fsC7a : FS := ("/out/a/x.jpg", fileJpegA) :: fsC7

def fsC7b : FS := ("/out/a/x(1).jpg", fileJpegB) :: fsC7a

/-- Witness for C7: placing `/src/a/x.jpg` and then `/src/a/x.jpeg`
(both normalize to `x.jpg`) yields the two distinct destinations
`x.jpg` and `x(1).jpg`, and the first copy is not overwritten by the
second. -/
theorem C7_destinations_never_collide_witness :
    ("/out/a/x.jpg" : String) ≠ "/out/a/x(1).jpg" ∧
      lookupFS fsC7b "/out/a/x.jpg" = lookupFS fsC7a "/out/a/x.jpg" :=
  ⟨(C7_destinations_never_collide fsC7 "/src" "/out" "/src/a/x.jpg" "/src/a/x.jpeg"
      "/out/a/x.jpg" fsC7a "/out/a/x(1).jpg" fsC7b rfl rfl).1,
   (C7_destinations_never_collide fsC7 "/src" "/out" "/src/a/x.jpg" "/src/a/x.jpeg"
      "/out/a/x.jpg" fsC7a "/out/a/x(1).jpg" fsC7b rfl rfl).2.1 "/out/a/x.jpg" rfl⟩

/-! ## Claim C1: placement is not idempotent across runs (code bug)

The spec says a second run of the placer on an unchanged source is a
no-op because an existing destination is treated as already placed.  In
the code, however, `compute_normalized_output` itself sees the existing
destination and diverts to the counter loop, so the exists-guard inside
`copy_media_to_output` never fires and a second run duplicates the file
under a counter-suffixed name. -/

def fsC1 : FS := [("/src/a/x.jpg", fileJpegA)]

def fsC1a : FS := ("/out/a/x.jpg", fileJpegA) :: fsC1

def fsC1b : FS := ("/out/a/x(1).jpg", fileJpegA) :: fsC1a

/-- C1 (refuted; code bug): copying `/src/a/x.jpg` a second time on an
unchanged source does not skip the copy: it produces the duplicate
destination `/out/a/x(1).jpg` next to the first run's `/out/a/x.jpg`. -/
theorem C1_second_run_duplicates :
    copy_media_to_output fsC1 "/src" "/out" "/src/a/x.jpg" = .ok ("/out/a/x.jpg", fsC1a) ∧
    copy_media_to_output fsC1a "/src" "/out" "/src/a/x.jpg" =
      .ok ("/out/a/x(1).jpg", fsC1b) ∧
    pathExists fsC1b "/out/a/x.jpg" = true ∧
    pathExists fsC1b "/out/a/x(1).jpg" = true :=
  ⟨rfl, rfl, rfl, rfl⟩

/-! ## Python value semantics for descriptor fields -/

/-- Python truthiness of a parsed JSON value. -/
def pyTruthy : Json → Bool
  | .null => false
  | .bool b => b
  | .num n => n ≠ 0
  | .str s => s ≠ ""
  | .arr xs => !xs.isEmpty
  | .obj kvs => !kvs.isEmpty

/-- Python dict `get` on an object association list built from JSON
text: the last binding of a repeated key wins. -/
def lookupLastJson : List (String × Json) → String → Option Json
  | [], _ => none
  | (k, v) :: rest, q =>
    match lookupLastJson rest q with
    | some r => some r
    | none => if k = q then some v else none

/-- Python `int(str)`: strip whitespace, optional sign, decimal digits
(digit-group underscores are not modelled); anything else raises, which
the caller catches into `none`. -/
def parseIntStr (s : String) : Option Int :=
  let l := pyStrip s.data
  let sd : Int × List Char :=
    match l with
    | '-' :: rest => (-1, rest)
    | '+' :: rest => (1, rest)
    | _ => (1, l)
  if sd.2 ≠ [] ∧ sd.2.all isAsciiDigit then some (sd.1 * (valBE sd.2 : Nat))
  else none

/-- Python `int(x)` on a parsed JSON value; `none` models the raised
`TypeError`/`ValueError` that `extract_metadata` catches. -/
def pyInt : Json → Option Int
  | .num n => some n
  | .bool b => some (if b then 1 else 0)
  | .str s => parseIntStr s
  | _ => none

mutual

/-- Python `str` of a parsed JSON value, as interpolated into the
exiftool field directives.  Containers render their elements with
`str` rather than `repr` (the inner quoting of `repr` is irrelevant
here: only emptiness and scalar renderings are ever observed, and a
bracketed rendering is never empty). -/
def pyStr : Json → String
  | .null => "None"
  | .bool true => "True"
  | .bool false => "False"
  | .num n => toString n
  | .str s => s
  | .arr xs => "[" ++ pyStrList xs ++ "]"
  | .obj kvs => "\x7b" ++ pyStrPairs kvs ++ "\x7d"

def pyStrList : List Json → String
  | [] => ""
  | [x] => pyStr x
  | x :: y :: rest => pyStr x ++ ", " ++ pyStrList (y :: rest)

def pyStrPairs : List (String × Json) → String
  | [] => ""
  | [(k, v)] => k ++ ": " ++ pyStr v
  | (k, v) :: e :: rest => k ++ ": " ++ pyStr v ++ ", " ++ pyStrPairs (e :: rest)

end

/-! ## Metadata extraction (`extract_metadata`) -/

/-- The record `extract_metadata` builds: an optional epoch timestamp
and the raw geoData field values (`none` when the key is absent; note a
JSON `null` value is Python `None` as well). -/
structure Meta where
  timestamp : Option Int
  latitude : Option Json
  longitude : Option Json
  altitude : Option Json

/-- The body of `extract_metadata` after `json.load` succeeded.  A
non-object top level raises (`.get` on a non-dict), as does a truthy
non-object `geoData`; a missing or non-numeric timestamp field becomes
`none` via the caught `int(...)` conversion. -/
def extract_from_json (j : Json) : Except String Meta :=
  match j with
  | .obj top =>
    let ts1 : Option Int :=
      match lookupLastJson top "photoTakenTime" with
      | some (.obj pt) =>
        match lookupLastJson pt "timestamp" with
        | some v => if pyTruthy v then pyInt v else none
        | none => none
      | _ => none
    let ts : Option Int :=
      match ts1 with
      | some t => some t
      | none =>
        match lookupLastJson top "creationTime" with
        | some (.obj ct) =>
          match lookupLastJson ct "timestamp" with
          | some v => if pyTruthy v then pyInt v else none
          | none => none
        | _ => none
    let geoRaw := (lookupLastJson top "geoData").getD (.obj [])
    let geo := if pyTruthy geoRaw then geoRaw else .obj []
    match geo with
    | .obj g =>
      .ok ⟨ts, lookupLastJson g "latitude", lookupLastJson g "longitude",
        lookupLastJson g "altitude"⟩
    | _ => .error "AttributeError: geoData value has no attribute get"
  | _ => .error "AttributeError: descriptor top level is not an object"

/-- `extract_metadata(json_path)`: open (raises when missing), parse
(raises on malformed JSON), then extract.  Neither raise is caught in
the source. -/
def extract_metadata (fs : FS) (json_path : String) : Except String Meta :=
  match lookupFS fs json_path with
  | none => .error ("FileNotFoundError: " ++ json_path)
  | some f =>
    match f.json with
    | none => .error "json.decoder.JSONDecodeError"
    | some j => extract_from_json j

/-! ## Date formatting (`fmt_ts`)

`datetime.fromtimestamp` uses the host local timezone; the model fixes
it to UTC.  The civil-from-days conversion is the standard one. -/

def pad2 (n : Int) : String := if n < 10 then "0" ++ toString n else toString n

def civilFromDays (z0 : Int) : Int × Int × Int :=
  let z := z0 + 719468
  let era := (if 0 ≤ z then z else z - 146096) / 146097
  let doe := z - era * 146097
  let yoe := (doe - doe / 1460 + doe / 36524 - doe / 146096) / 365
  let y := yoe + era * 400
  let doy := doe - (365 * yoe + yoe / 4 - yoe / 100)
  let mp := (5 * doy + 2) / 153
  let d := doy - (153 * mp + 2) / 5 + 1
  let m := mp + (if mp < 10 then 3 else -9)
  (if m ≤ 2 then y + 1 else y, m, d)

/-- `fmt_ts`: format an epoch timestamp as Y:m:d H:M:S. -/
def fmt_ts (ts : Int) : String :=
  let days := ts.fdiv 86400
  let secs := ts.emod 86400
  let ymd := civilFromDays days
  toString ymd.1 ++ ":" ++ pad2 ymd.2.1 ++ ":" ++ pad2 ymd.2.2 ++ " " ++
    pad2 (secs / 3600) ++ ":" ++ pad2 ((secs % 3600) / 60) ++ ":" ++ pad2 (secs % 60)

/-! ## Building the exiftool field-write request
(`build_exiftool_args`) -/

/-- `valid_num(x)` from the source: `x is not None and str(x) != ''`.
A `none` models both an absent key and Python `None`; a JSON `null`
value is Python `None` too. -/
def valid_num (x : Option Json) : Bool :=
  match x with
  | none => false
  | some .null => false
  | some v => pyStr v ≠ ""

/-- `str(x)` of the optional value as interpolated into a directive
(only ever observed when `valid_num` holds). -/
def pyOptStr : Option Json → String
  | none => "None"
  | some v => pyStr v

/-- The external metadata-writing capability (`run_exiftool`): takes
the argument list and the target path, returns result code and combined
log. -/
abbrev ExifRunner := List String → String → Int × String

/-- `build_exiftool_args`: date-tag directives when the timestamp is
truthy, latitude/longitude directives when both are valid, an altitude
directive when it is valid, and the QuickTime UTC api prefix for
video-sniffed targets. -/
def build_exiftool_args (fs : FS) (target_path : String) (meta : Meta) : List String :=
  let dateArgs : List String :=
    match meta.timestamp with
    | some t =>
      if t ≠ 0 then
        ["-DateTimeOriginal=" ++ fmt_ts t, "-CreateDate=" ++ fmt_ts t,
         "-ModifyDate=" ++ fmt_ts t, "-P", "-FileCreateDate<CreateDate",
         "-FileModifyDate<ModifyDate"]
      else []
    | none => []
  let gpsArgs : List String :=
    if valid_num meta.latitude && valid_num meta.longitude then
      ["-GPSLatitude=" ++ pyOptStr meta.latitude,
       "-GPSLongitude=" ++ pyOptStr meta.longitude]
    else []
  let altArgs : List String :=
    if valid_num meta.altitude then ["-GPSAltitude=" ++ pyOptStr meta.altitude]
    else []
  let args := ["-overwrite_original"] ++ dateArgs ++ gpsArgs ++ altArgs
  match sniff_type fs target_path with
  | some ke =>
    if ke.1 = "mov" ∨ ke.1 = "mp4" then ["-api", "QuickTimeUTC=1"] ++ args else args
  | none => args

/-- `set_fs_times_fallback`: best-effort `os.utime` setting modified and
accessed times; any failure (for example a missing path) is swallowed,
which the entrywise map models. -/
def set_fs_times_fallback (fs : FS) (path : String) (timestamp : Int) : FS :=
  fs.map (fun e =>
    (e.1, if e.1 = path then { e.2 with mtime := timestamp, atime := timestamp } else e.2))

/-- `apply_metadata_and_fs_times`: build the request, run the external
tool, and, whenever the timestamp is truthy, additionally set the
filesystem times directly — independent of the tool result. -/
def apply_metadata_and_fs_times (ex : ExifRunner) (fs : FS) (target_path : String)
    (meta : Meta) : (Int × String) × FS :=
  let args := build_exiftool_args fs target_path meta
  let r := ex args target_path
  let fs2 :=
    match meta.timestamp with
    | some ts => if ts ≠ 0 then set_fs_times_fallback fs target_path ts else fs
    | none => fs
  (r, fs2)

/-! ## Observing the request: which tag directives are present -/

/-- Whether some directive in the request starts with the given tag
text. -/
def hasArgTag (tag : String) (args : List String) : Bool :=
  args.any (fun a => listPrefixOf tag.data a.data)

/-! ## Claim C6: GPS directives -/

def metaAltOnly : Meta := ⟨none, none, none, some (.num 100)⟩

/-- C6 counterexample: with only an altitude present (no latitude, no
longitude) the built request nevertheless contains a GPS tag directive,
`-GPSAltitude=100` — refuting that GPS directives appear exactly when
both latitude and longitude are present and that altitude is only
attached alongside them. -/
theorem C6_counterexample :
    build_exiftool_args [] "/out/p.jpg" metaAltOnly =
      ["-overwrite_original", "-GPSAltitude=100"] ∧
    hasArgTag "-GPSAltitude=" (build_exiftool_args [] "/out/p.jpg" metaAltOnly) = true ∧
    metaAltOnly.latitude = none ∧ metaAltOnly.longitude = none :=
  ⟨rfl, rfl, rfl, rfl⟩

/-- C6 as amended: the latitude/longitude directives appear exactly when
both latitude and longitude are valid, while the altitude directive
appears exactly when altitude is valid — independently of latitude and
longitude. -/
theorem C6_gps_directives (fs : FS) (t : String) (meta : Meta) :
    (hasArgTag "-GPSLatitude=" (build_exiftool_args fs t meta) =
      (valid_num meta.latitude && valid_num meta.longitude)) ∧
    (hasArgTag "-GPSLongitude=" (build_exiftool_args fs t meta) =
      (valid_num meta.latitude && valid_num meta.longitude)) ∧
    (hasArgTag "-GPSAltitude=" (build_exiftool_args fs t meta) =
      valid_num meta.altitude) := by
  obtain ⟨ts, lat, lon, alt⟩ := meta
  simp only [build_exiftool_args]
  rcases ts with _ | t0 <;>
    cases hg : (valid_num lat && valid_num lon) <;>
      cases ha : valid_num alt <;>
        rcases hsn : sniff_type fs t with _ | ⟨k, e⟩ <;>
          (try by_cases ht0 : t0 = 0) <;>
            (try by_cases hv : k = "mov" ∨ k = "mp4") <;>
              simp [*] <;>
                exact ⟨rfl, rfl, rfl⟩

/-! ## Claim C10: a zero timestamp behaves exactly like an absent one -/

/-- C10: when the extracted timestamp equals 0, the built request is
identical to the request for an absent timestamp (in particular no
date-tag directive appears), and `apply_metadata_and_fs_times` behaves
identically too — the filesystem-time fallback is skipped — because both
code paths test the timestamp for truthiness. -/
theorem C10_zero_timestamp (ex : ExifRunner) (fs : FS) (t : String) (meta : Meta)
    (h : meta.timestamp = some 0) :
    build_exiftool_args fs t meta =
      build_exiftool_args fs t { meta with timestamp := none } ∧
    hasArgTag "-DateTimeOriginal=" (build_exiftool_args fs t meta) = false ∧
    apply_metadata_and_fs_times ex fs t meta =
      apply_metadata_and_fs_times ex fs t { meta with timestamp := none } := by
  obtain ⟨ts, lat, lon, alt⟩ := meta
  have h2 : ts = some 0 := h
  subst h2
  refine ⟨?_, ?_, ?_⟩
  · simp [build_exiftool_args]
  · simp only [build_exiftool_args]
    cases hg : (valid_num lat && valid_num lon) <;>
      cases ha : valid_num alt <;>
        rcases hsn : sniff_type fs t with _ | ⟨k, e⟩ <;>
          (try by_cases hv : k = "mov" ∨ k = "mp4") <;>
            simp [*] <;> rfl
  · simp [apply_metadata_and_fs_times, build_exiftool_args]

def exOk : ExifRunner := fun _ _ => (0, "ok")

def exFail : ExifRunner := fun _ _ => (1, "exiftool write failed")

def fsC5 : FS := [("/out/p.png", ⟨pngBytes, none, 5, 5⟩)]

def metaZeroTs : Meta := ⟨some 0, none, none, none⟩

/-- Witness for C10 at a concrete input: a zero-timestamp record on a
PNG target, with a succeeding external tool. -/
theorem C10_zero_timestamp_witness :
    build_exiftool_args fsC5 "/out/p.png" metaZeroTs =
      build_exiftool_args fsC5 "/out/p.png" { metaZeroTs with timestamp := none } ∧
    hasArgTag "-DateTimeOriginal="
      (build_exiftool_args fsC5 "/out/p.png" metaZeroTs) = false ∧
    apply_metadata_and_fs_times exOk fsC5 "/out/p.png" metaZeroTs =
      apply_metadata_and_fs_times exOk fsC5 "/out/p.png"
        { metaZeroTs with timestamp := none } :=
  C10_zero_timestamp exOk fsC5 "/out/p.png" metaZeroTs rfl

/-! ## Claim C5: the filesystem-time fallback -/

/-- A descriptor whose photo-taken timestamp field is the string "0":
extraction yields a present timestamp equal to 0. -/
def fsC5json : FS :=
  [("/d/z.json", ⟨[0x7b], some (.obj [("photoTakenTime",
    Json.obj [("timestamp", Json.str "0")])]), 0, 0⟩)]

/-- C5 counterexample: a record whose timestamp is present but equals 0
(reachable from a real descriptor whose timestamp field is "0").  Even
with a succeeding external tool the fallback never runs: the filesystem
is returned unchanged, with the file's modified time still 5 rather
than the timestamp — so a present timestamp does not always get the
filesystem-time fallback. -/
theorem C5_counterexample :
    extract_metadata fsC5json "/d/z.json" = .ok metaZeroTs ∧
    metaZeroTs.timestamp = some 0 ∧
    (apply_metadata_and_fs_times exOk fsC5 "/out/p.png" metaZeroTs).2 = fsC5 ∧
    (lookupFS fsC5 "/out/p.png").map FSFile.mtime = some 5 :=
  ⟨rfl, rfl, rfl, rfl⟩

theorem lookupFS_set_times (fs : FS) (p : String) (ts : Int) (f : FSFile)
    (h : lookupFS fs p = some f) :
    lookupFS (set_fs_times_fallback fs p ts) p =
      some { f with mtime := ts, atime := ts } := by
  induction fs with
  | nil => cases h
  | cons e t ih =>
    obtain ⟨q, g⟩ := e
    simp only [lookupFS] at h
    by_cases hq : q = p
    · rw [if_pos hq] at h
      injection h with hgf
      subst hgf
      subst hq
      simp [set_fs_times_fallback, lookupFS]
    · rw [if_neg hq] at h
      simpa [set_fs_times_fallback, lookupFS, hq] using ih h

/-- C5 as amended: for a present nonzero timestamp the fallback is
applied unconditionally — for every external tool result, the returned
filesystem carries the timestamp as the target's modified and accessed
times. -/
theorem C5_fs_times_fallback (ex : ExifRunner) (fs : FS) (target : String)
    (meta : Meta) (tsv : Int) (h : meta.timestamp = some tsv) (h0 : tsv ≠ 0) :
    (apply_metadata_and_fs_times ex fs target meta).2 =
      set_fs_times_fallback fs target tsv ∧
    ∀ f, lookupFS fs target = some f →
      lookupFS (apply_metadata_and_fs_times ex fs target meta).2 target =
        some { f with mtime := tsv, atime := tsv } := by
  have h1 : (apply_metadata_and_fs_times ex fs target meta).2 =
      set_fs_times_fallback fs target tsv := by
    simp [apply_metadata_and_fs_times, h, h0]
  exact ⟨h1, fun f hf => by rw [h1]; exact lookupFS_set_times fs target tsv f hf⟩

def metaTs77 : Meta := ⟨some 77, none, none, none⟩

/-- Witness for C5 as amended, with a stub external tool that always
fails: the filesystem times are still set to the timestamp. -/
theorem C5_fs_times_fallback_witness :
    lookupFS (apply_metadata_and_fs_times exFail fsC5 "/out/p.png" metaTs77).2
      "/out/p.png" = some ⟨pngBytes, none, 77, 77⟩ :=
  (C5_fs_times_fallback exFail fsC5 "/out/p.png" metaTs77 77 rfl (by decide)).2
    ⟨pngBytes, none, 5, 5⟩ rfl

/-! ## Live Photo partner finder (`find_live_video_partner`) -/

/-- The candidate paths probed in order: the extensionless stem, then
the typical video extensions. -/
def livePartnerCandidates (folder image_basestem : String) : List String :=
  [joinPath folder image_basestem,
   joinPath folder (image_basestem ++ ".mov"),
   joinPath folder (image_basestem ++ ".MOV"),
   joinPath folder (image_basestem ++ ".mp4"),
   joinPath folder (image_basestem ++ ".MP4"),
   joinPath folder (image_basestem ++ ".m4v")]

/-- Whether the header sniff of a path reports a video kind. -/
def isVideoSniff (fs : FS) (p : String) : Bool :=
  match sniff_type fs p with
  | some ke => ke.1 = "mov" || ke.1 = "mp4"
  | none => false

/-- `find_live_video_partner`: probe the candidates, accepting only a
path that exists and sniffs as video; otherwise scan the directory for
a file whose name equals the stem or starts with the stem and a dot and
sniffs as video.  A missing folder makes the scan empty (the caught
FileNotFoundError). -/
def find_live_video_partner (fs : FS) (folder image_basestem : String) :
    Option String :=
  match (livePartnerCandidates folder image_basestem).find?
      (fun c => pathExists fs c && isVideoSniff fs c) with
  | some c => some c
  | none =>
    ((scandirFS fs folder).find? (fun e =>
      (e.1 == image_basestem || listPrefixOf (image_basestem ++ ".").data e.1.data) &&
        isVideoSniff fs e.2.1)).map (fun e => e.2.1)

/-! ## The run (`process_folder`)

The directory walk `get_sidecars` produces the (json, resolved media)
pairs; the model takes that list as input and folds the per-unit loop
body over it.  The console progress display changes no state and is not
modelled. -/

structure RunConfig where
  ex : ExifRunner
  root_folder : String
  out_folder : String

/-- The loop state: the filesystem, the three counters, the set of
already-seen companion paths, and — as ghost instrumentation that
changes no control flow — the list of source paths the companion branch
copied. -/
structure RunState where
  fs : FS
  success : Nat
  failed : Nat
  linked_live : Nat
  seen_live : List String
  companion_copies : List String

instance : Inhabited RunState := ⟨⟨[], 0, 0, 0, [], []⟩⟩

/-- The trailing companion block of one loop iteration: if the media is
an image, look for a live-photo partner, and if one is found that was
not seen yet, place it and fuse the same metadata; the seen set is
extended only when the tool call succeeds. -/
def processCompanion (cfg : RunConfig) (st1 : RunState) (meta : Meta)
    (media_path : String) : Except String RunState :=
  match sniff_type st1.fs media_path with
  | some ke =>
    if ke.1 ≠ "mov" ∧ ke.1 ≠ "mp4" then
      match find_live_video_partner st1.fs (dirname media_path)
          (splitext (basename media_path)).1 with
      | some live_path =>
        if ¬ st1.seen_live.contains live_path then
          match copy_media_to_output st1.fs cfg.root_folder cfg.out_folder
              live_path with
          | .error e => .error e
          | .ok (out_live, fs3) =>
            let r2 := apply_metadata_and_fs_times cfg.ex fs3 out_live meta
            let st2 :=
              { st1 with
                fs := r2.2,
                companion_copies := st1.companion_copies ++ [live_path] }
            if r2.1.1 ≠ 0 then .ok st2
            else
              .ok
                { st2 with
                  linked_live := st2.linked_live + 1,
                  seen_live := live_path :: st2.seen_live }
        else .ok st1
      | none => .ok st1
    else .ok st1
  | none => .ok st1

/-- One iteration of the loop in `process_folder`: handle one
(json path, resolved media) pair.  A unit with no resolved media only
counts a failure; otherwise the media is placed, the descriptor
extracted (exceptions propagate), metadata fused (a nonzero tool result
is only logged, not counted as success), and the companion block runs. -/
def processUnit (cfg : RunConfig) (st : RunState) (unit : String × Option String) :
    Except String RunState :=
  match unit.2 with
  | none => .ok { st with failed := st.failed + 1 }
  | some media_path =>
    match copy_media_to_output st.fs cfg.root_folder cfg.out_folder media_path with
    | .error e => .error e
    | .ok (out_media, fs1) =>
      match extract_metadata fs1 unit.1 with
      | .error e => .error e
      | .ok meta =>
        let r1 := apply_metadata_and_fs_times cfg.ex fs1 out_media meta
        processCompanion cfg
          { st with
            fs := r1.2,
            success := if r1.1.1 ≠ 0 then st.success else st.success + 1 }
          meta media_path

/-- The loop of `process_folder`: process the units in order; an
uncaught exception aborts the whole run. -/
def runSidecars (cfg : RunConfig) : RunState → List (String × Option String) →
    Except String RunState
  | st, [] => .ok st
  | st, u :: rest =>
    match processUnit cfg st u with
    | .error e => .error e
    | .ok st1 => runSidecars cfg st1 rest

/-- `process_folder` over an already-computed sidecar list, counters
starting at zero. -/
def process_folder (cfg : RunConfig) (fs0 : FS)
    (sidecars : List (String × Option String)) : Except String RunState :=
  runSidecars cfg ⟨fs0, 0, 0, 0, [], []⟩ sidecars

/-! ## Concrete run scenarios -/

/-- An empty JSON object descriptor file (no timestamp, no geodata). -/
def emptyJsonFile : FSFile := ⟨[0x7b, 0x7d], some (.obj []), 0, 0⟩

/-- Two still images sharing the stem of one video, plus their
descriptors. -/
def fsC2 : FS :=
  [("/d/IMG_1.json", emptyJsonFile),
   ("/d/IMG_1p.json", emptyJsonFile),
   ("/d/IMG_1.jpg", ⟨jpegBytes, none, 0, 0⟩),
   ("/d/IMG_1.png", ⟨pngBytes, none, 0, 0⟩),
   ("/d/IMG_1.mov", ⟨movBytes, none, 0, 0⟩)]

def sidecarsC2 : List (String × Option String) :=
  [("/d/IMG_1.json", some "/d/IMG_1.jpg"),
   ("/d/IMG_1p.json", some "/d/IMG_1.png")]

def cfgC2fail : RunConfig := ⟨exFail, "/", "/out"⟩

def runC2fail : Except String RunState := process_folder cfgC2fail fsC2 sidecarsC2

/-- C2 counterexample: with a failing external tool, the companion video
is not recorded in the seen set (the set is only updated on tool
success), so the second image processes the same video again: the run
copies `/d/IMG_1.mov` twice, producing both `IMG_1.mov` and
`IMG_1(1).mov` under the output root. -/
theorem C2_counterexample :
    runC2fail.map (fun st =>
      (st.companion_copies, pathExists st.fs "/out/d/IMG_1.mov",
        pathExists st.fs "/out/d/IMG_1(1).mov")) =
      .ok (["/d/IMG_1.mov", "/d/IMG_1.mov"], true, true) := rfl

/-- A malformed descriptor (its bytes do not parse as JSON) next to a
perfectly resolvable image. -/
def fsC3 : FS :=
  [("/d/bad.json", ⟨[0x6e, 0x6f], none, 0, 0⟩),
   ("/d/IMG_9.jpg", ⟨jpegBytes, none, 0, 0⟩)]

def cfgC3 : RunConfig := ⟨exOk, "/", "/out"⟩

/-- C3 counterexample: one malformed descriptor aborts the whole run —
the `json.load` exception escapes the unit (there is no handler in
`process_folder`), refuting that malformed descriptor JSON is treated
as "field absent" and that no exception escapes a unit. -/
theorem C3_counterexample :
    process_folder cfgC3 fsC3 [("/d/bad.json", some "/d/IMG_9.jpg")] =
      .error "json.decoder.JSONDecodeError" := rfl

/-- A well-formed empty descriptor next to its image. -/
def fsC4 : FS :=
  [("/d/IMG_9.json", emptyJsonFile),
   ("/d/IMG_9.jpg", ⟨jpegBytes, none, 0, 0⟩)]

def cfgC4 : RunConfig := ⟨exFail, "/", "/out"⟩

def runC4 : Except String RunState :=
  process_folder cfgC4 fsC4 [("/d/IMG_9.json", some "/d/IMG_9.jpg")]

/-- C4 counterexample: with media present and the external tool exiting
nonzero, the run completes with success = 0 — the failure is indeed not
counted as a success and does not abort — but failed = 0 as well: an
external-tool failure does not increment the failure counter, refuting
the claim that every per-unit failure increments it. -/
theorem C4_counterexample :
    runC4.map (fun st => (st.success, st.failed)) = .ok (0, 0) := rfl

/-! ## Helper lemmas about the run -/

/-- A copy from an existing source succeeds, prepending the file under
the freshly computed destination. -/
theorem copy_ok_of_src (fs : FS) (root out media : String) (g : FSFile)
    (h : lookupFS fs media = some g) :
    copy_media_to_output fs root out media =
      .ok (compute_normalized_output fs root out media,
        (compute_normalized_output fs root out media, g) :: fs) := by
  unfold copy_media_to_output
  rw [if_neg (by rw [compute_fresh]; simp)]
  unfold shutil_copy2
  rw [h]
  rfl

theorem pathExists_of_mem (fs : FS) (p : String) (f : FSFile)
    (h : (p, f) ∈ fs) : pathExists fs p = true := by
  induction fs with
  | nil => cases h
  | cons e t ih =>
    rcases List.mem_cons.mp h with rfl | hm
    · simp [pathExists, lookupFS]
    · obtain ⟨q, g⟩ := e
      by_cases hq : q = p
      · simp [pathExists, lookupFS, hq]
      · simp only [pathExists, lookupFS, if_neg hq]
        exact ih hm

theorem scandirFS_mem_exists (fs : FS) (folder : String)
    (e : String × String × FSFile) (h : e ∈ scandirFS fs folder) :
    pathExists fs e.2.1 = true := by
  unfold scandirFS at h
  rcases List.mem_filterMap.mp h with ⟨a, ha, hae⟩
  by_cases hd : dirname a.1 = folder
  · rw [if_pos hd] at hae
    cases hae
    exact pathExists_of_mem fs a.1 a.2 (by simpa using ha)
  · rw [if_neg hd] at hae
    cases hae

/-- A found live partner is an existing path. -/
theorem find_live_exists (fs : FS) (folder stem c : String)
    (h : find_live_video_partner fs folder stem = some c) :
    pathExists fs c = true := by
  unfold find_live_video_partner at h
  cases h1 : (livePartnerCandidates folder stem).find?
      (fun c => pathExists fs c && isVideoSniff fs c) with
  | some c0 =>
    rw [h1] at h
    cases h
    have hp := List.find?_some h1
    simp only [Bool.and_eq_true] at hp
    exact hp.1
  | none =>
    rw [h1] at h
    cases h2 : (scandirFS fs folder).find? (fun e =>
        (e.1 == stem || listPrefixOf (stem ++ ".").data e.1.data) &&
          isVideoSniff fs e.2.1) with
    | none =>
      rw [h2] at h
      cases h
    | some e0 =>
      rw [h2] at h
      cases h
      exact scandirFS_mem_exists fs folder e0 (List.mem_of_find?_eq_some h2)

/-- The companion block never raises, and never touches the success and
failure counters. -/
theorem processCompanion_ok_counters (cfg : RunConfig) (st1 : RunState)
    (meta : Meta) (media : String) :
    ∃ st', processCompanion cfg st1 meta media = .ok st' ∧
      st'.success = st1.success ∧ st'.failed = st1.failed := by
  unfold processCompanion
  split
  · split
    · split
      · rename_i live hfind
        split
        · have hex1 : pathExists st1.fs live = true :=
            find_live_exists _ _ _ _ hfind
          obtain ⟨g, hg⟩ := (pathExists_iff _ _).mp hex1
          rw [copy_ok_of_src st1.fs cfg.root_folder cfg.out_folder live g hg]
          dsimp only
          split
          · exact ⟨_, rfl, rfl, rfl⟩
          · exact ⟨_, rfl, rfl, rfl⟩
        · exact ⟨st1, rfl, rfl, rfl⟩
      · exact ⟨st1, rfl, rfl, rfl⟩
    · exact ⟨st1, rfl, rfl, rfl⟩
  · exact ⟨st1, rfl, rfl, rfl⟩

/-- With an always-succeeding tool, the companion block either leaves
the state unchanged or records one unseen companion and marks it
seen. -/
theorem processCompanion_shape (cfg : RunConfig) (st1 : RunState) (meta : Meta)
    (media : String) (st' : RunState) (hex : ∀ a t, (cfg.ex a t).1 = 0)
    (h : processCompanion cfg st1 meta media = .ok st') :
    st' = st1 ∨
      ∃ live, st1.seen_live.contains live = false ∧
        st'.companion_copies = st1.companion_copies ++ [live] ∧
        st'.seen_live = live :: st1.seen_live := by
  unfold processCompanion at h
  split at h
  · split at h
    · split at h
      · rename_i live hfind
        split at h
        · rename_i hseen
          split at h
          · cases h
          · dsimp only at h
            split at h
            · rename_i hrc
              exfalso
              apply hrc
              simp [apply_metadata_and_fs_times, hex]
            · cases h
              refine Or.inr ⟨live, ?_, rfl, rfl⟩
              simpa using hseen
        · cases h
          exact Or.inl rfl
      · cases h
        exact Or.inl rfl
    · cases h
      exact Or.inl rfl
  · cases h
    exact Or.inl rfl

/-- With an always-succeeding tool, one unit either leaves the
companion trace and seen set unchanged or appends one unseen companion
and marks it seen. -/
theorem processUnit_shape (cfg : RunConfig) (st st' : RunState)
    (u : String × Option String) (hex : ∀ a t, (cfg.ex a t).1 = 0)
    (h : processUnit cfg st u = .ok st') :
    (st'.companion_copies = st.companion_copies ∧ st'.seen_live = st.seen_live) ∨
      ∃ live, st.seen_live.contains live = false ∧
        st'.companion_copies = st.companion_copies ++ [live] ∧
        st'.seen_live = live :: st.seen_live := by
  rcases u with ⟨jp, _ | media⟩
  · simp only [processUnit] at h
    cases h
    exact Or.inl ⟨rfl, rfl⟩
  · simp only [processUnit] at h
    split at h
    · cases h
    · split at h
      · cases h
      · rcases processCompanion_shape _ _ _ _ _ hex h with rfl | ⟨live, hc, hcc, hseen⟩
        · exact Or.inl ⟨rfl, rfl⟩
        · exact Or.inr ⟨live, hc, hcc, hseen⟩

/-- The invariant tying the companion trace to the seen set: a path not
yet seen was never copied by the companion branch, a seen one at most
once. -/
def companionInv (st : RunState) : Prop :=
  ∀ v, st.companion_copies.count v ≤ if v ∈ st.seen_live then 1 else 0

theorem contains_false_not_mem (l : List String) (a : String)
    (h : l.contains a = false) : a ∉ l := by
  intro hm
  have := List.elem_eq_true_of_mem hm
  rw [List.contains, this] at h
  cases h

theorem processUnit_companion_inv (cfg : RunConfig)
    (hex : ∀ a t, (cfg.ex a t).1 = 0) (st st' : RunState)
    (u : String × Option String) (h : processUnit cfg st u = .ok st')
    (hinv : companionInv st) : companionInv st' := by
  rcases processUnit_shape cfg st st' u hex h with ⟨hcc, hseen⟩ | ⟨live, hc, hcc, hseen⟩
  · intro v
    rw [hcc, hseen]
    exact hinv v
  · intro v
    rw [hcc, hseen, List.count_append]
    have h0 := hinv v
    by_cases hv : v = live
    · subst hv
      have hnm : v ∉ st.seen_live := contains_false_not_mem _ _ hc
      rw [if_neg hnm] at h0
      rw [if_pos (List.mem_cons_self _ _)]
      simp only [List.count_singleton]
      simp at h0 ⊢
      omega
    · have hcnt : [live].count v = 0 := by
        simp [List.count_singleton, hv]
      rw [hcnt]
      by_cases hm : v ∈ st.seen_live
      · rw [if_pos hm] at h0
        rw [if_pos (List.mem_cons_of_mem _ hm)]
        omega
      · rw [if_neg hm] at h0
        by_cases hm2 : v ∈ live :: st.seen_live
        · rw [if_pos hm2]
          omega
        · rw [if_neg hm2]
          omega

theorem runSidecars_inv (cfg : RunConfig) (hex : ∀ a t, (cfg.ex a t).1 = 0) :
    ∀ (l : List (String × Option String)) (s0 : RunState), companionInv s0 →
      ∀ s, runSidecars cfg s0 l = .ok s → companionInv s := by
  intro l
  induction l with
  | nil =>
    intro s0 hinv s h
    cases h
    exact hinv
  | cons u rest ih =>
    intro s0 hinv s h
    simp only [runSidecars] at h
    cases hu : processUnit cfg s0 u with
    | error e =>
      rw [hu] at h
      cases h
    | ok s1 =>
      rw [hu] at h
      exact ih s1 (processUnit_companion_inv cfg hex s0 s1 u hu hinv) s h

/-! ## Claim C2: each companion video processed at most once -/

/-- C2 as amended: when the external tool succeeds (result code 0 — the
only case in which the source adds a companion to the seen set), every
companion source path is copied and fused by the companion branch at
most once across the whole run.  (The C2 counterexample shows the
unqualified claim fails under a failing tool, because the seen set is
only updated on success.) -/
theorem C2_companion_at_most_once (cfg : RunConfig)
    (hex : ∀ a t, (cfg.ex a t).1 = 0) (fs0 : FS)
    (sidecars : List (String × Option String)) (st : RunState)
    (h : process_folder cfg fs0 sidecars = .ok st) (v : String) :
    st.companion_copies.count v ≤ 1 := by
  have hinv := runSidecars_inv cfg hex sidecars ⟨fs0, 0, 0, 0, [], []⟩
    (fun _ => Nat.zero_le _) st h
  have h0 := hinv v
  by_cases hm : v ∈ st.seen_live
  · rw [if_pos hm] at h0
    exact h0
  · rw [if_neg hm] at h0
    omega

def cfgC2ok : RunConfig := ⟨exOk, "/", "/out"⟩

def stC2ok : RunState :=
  (process_folder cfgC2ok fsC2 sidecarsC2).toOption.getD default

/-- Witness for C2 as amended, on the shared-video scenario with a
succeeding tool. -/
theorem C2_companion_at_most_once_witness :
    stC2ok.companion_copies.count "/d/IMG_1.mov" ≤ 1 :=
  C2_companion_at_most_once cfgC2ok (fun _ _ => rfl) fsC2 sidecarsC2 stC2ok rfl
    "/d/IMG_1.mov"

/-! ## Claim C3: malformed descriptors -/

theorem apply_rc (ex : ExifRunner) (fs : FS) (t : String) (m : Meta) :
    (apply_metadata_and_fs_times ex fs t m).1 = ex (build_exiftool_args fs t m) t := rfl

/-- C3 as amended: a missing or non-numeric *numeric field* is treated
as absent and never raises — a descriptor whose timestamp field is a
non-numeric string extracts to an all-absent record — but malformed
descriptor *JSON* raises an uncaught parse exception that escapes the
unit's processing and aborts the run. -/
theorem C3_malformed_handling :
    (∀ fs jp f s,
      lookupFS fs jp = some f →
      f.json = some (.obj [("photoTakenTime", Json.obj [("timestamp", Json.str s)])]) →
      parseIntStr s = none → s ≠ "" →
      extract_metadata fs jp = .ok ⟨none, none, none, none⟩) ∧
    (∀ cfg st jp media fj g,
      lookupFS st.fs jp = some fj → fj.json = none →
      lookupFS st.fs media = some g →
      processUnit cfg st (jp, some media) = .error "json.decoder.JSONDecodeError") := by
  constructor
  · intro fs jp f s hjp hjson hparse hs
    have h1 : ¬ ("photoTakenTime" : String) = "creationTime" := by decide
    have h2 : ¬ ("photoTakenTime" : String) = "geoData" := by decide
    simp [extract_metadata, hjp, hjson, extract_from_json, lookupLastJson,
      pyTruthy, pyInt, hparse, hs, h1, h2]
  · intro cfg st jp media fj g hjp hjson hg
    simp only [processUnit]
    rw [copy_ok_of_src st.fs cfg.root_folder cfg.out_folder media g hg]
    dsimp only
    have hne : ¬ compute_normalized_output st.fs cfg.root_folder cfg.out_folder
        media = jp := by
      intro he
      have hfr := compute_fresh st.fs cfg.root_folder cfg.out_folder media
      rw [he] at hfr
      simp [pathExists, hjp] at hfr
    simp [extract_metadata, lookupFS, hne, hjp, hjson]

def fT : FSFile :=
  ⟨[0x7b], some (.obj [("photoTakenTime",
    Json.obj [("timestamp", Json.str "not-a-number")])]), 0, 0⟩

def fsC3w : FS := [("/d/t.json", fT)]

/-- Witness for C3: a concrete non-numeric timestamp extracts to an
absent timestamp, and a concrete malformed descriptor aborts its
unit. -/
theorem C3_malformed_handling_witness :
    extract_metadata fsC3w "/d/t.json" = .ok ⟨none, none, none, none⟩ ∧
    processUnit cfgC3 ⟨fsC3, 0, 0, 0, [], []⟩ ("/d/bad.json", some "/d/IMG_9.jpg") =
      .error "json.decoder.JSONDecodeError" :=
  ⟨C3_malformed_handling.1 fsC3w "/d/t.json" fT "not-a-number" rfl rfl rfl (by decide),
   C3_malformed_handling.2 cfgC3 ⟨fsC3, 0, 0, 0, [], []⟩ "/d/bad.json" "/d/IMG_9.jpg"
     ⟨[0x6e, 0x6f], none, 0, 0⟩ ⟨jpegBytes, none, 0, 0⟩ rfl rfl rfl⟩

/-! ## Claim C4: per-unit failures -/

/-- C4 as amended: a unit with missing media does not abort, increments
the failure counter, and processing continues; a unit whose external
tool exits nonzero does not abort and is not counted as a success — but
it leaves the failure counter unchanged as well (the counterexample
refutes the original "increments the failure counter" for this
case). -/
theorem C4_unit_failure_handling (cfg : RunConfig)
    (hex : ∀ a t, (cfg.ex a t).1 ≠ 0) :
    (∀ st jp, processUnit cfg st (jp, none) =
      .ok { st with failed := st.failed + 1 }) ∧
    (∀ st jp media fj jv m g,
      lookupFS st.fs jp = some fj → fj.json = some jv →
      extract_from_json jv = .ok m → lookupFS st.fs media = some g →
      (processUnit cfg st (jp, some media)).map (fun s => (s.success, s.failed)) =
        .ok (st.success, st.failed)) := by
  constructor
  · intro st jp
    rfl
  · intro st jp media fj jv m g hjp hjson hextract hg
    simp only [processUnit]
    rw [copy_ok_of_src st.fs cfg.root_folder cfg.out_folder media g hg]
    dsimp only
    have hne : ¬ compute_normalized_output st.fs cfg.root_folder cfg.out_folder
        media = jp := by
      intro he
      have hfr := compute_fresh st.fs cfg.root_folder cfg.out_folder media
      rw [he] at hfr
      simp [pathExists, hjp] at hfr
    have hmeta : extract_metadata
        ((compute_normalized_output st.fs cfg.root_folder cfg.out_folder media, g) ::
          st.fs) jp = .ok m := by
      simp [extract_metadata, lookupFS, hne, hjp, hjson, hextract]
    rw [hmeta]
    dsimp only
    simp only [apply_rc]
    rw [if_pos (hex _ _)]
    obtain ⟨s', hpc, hs, hf⟩ := processCompanion_ok_counters cfg _ m media
    rw [hpc]
    simp only [Except.map, hs, hf]

def stC4 : RunState := ⟨fsC4, 0, 0, 0, [], []⟩

/-- Witness for C4 on concrete inputs: a missing-media unit counts one
failure; a present-media unit under the always-failing tool leaves both
counters at zero. -/
theorem C4_unit_failure_handling_witness :
    processUnit cfgC4 stC4 ("/d/gone.json", none) =
      .ok { stC4 with failed := stC4.failed + 1 } ∧
    (processUnit cfgC4 stC4 ("/d/IMG_9.json", some "/d/IMG_9.jpg")).map
      (fun s => (s.success, s.failed)) = .ok (stC4.success, stC4.failed) :=
  ⟨(C4_unit_failure_handling cfgC4 (fun _ _ => one_ne_zero)).1 stC4 "/d/gone.json",
   (C4_unit_failure_handling cfgC4 (fun _ _ => one_ne_zero)).2 stC4 "/d/IMG_9.json"
     "/d/IMG_9.jpg" emptyJsonFile (.obj []) ⟨none, none, none, none⟩
     ⟨jpegBytes, none, 0, 0⟩ rfl rfl rfl rfl⟩

/-! ## Validation examples

Concrete evaluations checking the embedding against the documented
behavior of the Python primitives and against worked examples from the
specification; none of these are claim theorems. -/

theorem sanity_sanitize_sidecar :
    sanitize_json_title "IMG_1.jpg.supplemental-metadata(1)" = "IMG_1.jpg" ∧
    sanitize_json_title "IMG_1.jpg.SUPPL" = "IMG_1.jpg" ∧
    sanitize_json_title "a.supp(5)" = "a" ∧
    sanitize_json_title "a.suppx" = "a.suppx" ∧
    sanitize_json_title "x..jpg." = "x.jpg" := by
  decide

theorem sanity_sniff_kinds :
    sniffBytes jpegBytes = some ("jpeg", "jpg") ∧
    sniffBytes pngBytes = some ("png", "png") ∧
    sniffBytes movBytes = some ("mov", "mov") ∧
    sniffBytes (TIFF_LE ++ [0, 0]) = some ("tiff", "tif") ∧
    sniffBytes ([0, 0, 0, 0x18] ++ FTYP ++ [0x68, 0x65, 0x69, 0x63]) =
      some ("heic", "heic") ∧
    sniffBytes ([0, 0, 0, 0x18] ++ FTYP ++ [0x69, 0x73, 0x6f, 0x6d]) =
      some ("mp4", "mp4") := by
  decide

theorem sanity_splitext :
    splitext "a..jpg" = ("a.", ".jpg") ∧
    splitext "..jpg" = ("..jpg", "") ∧
    splitext "/d/x.tar.gz" = ("/d/x.tar", ".gz") ∧
    splitext "/d.dir/noext" = ("/d.dir/noext", "") := by
  decide

theorem sanity_collapse_extensions :
    collapse_extensions "x.jpg.json" = ("x", ".jpg") ∧
    collapse_extensions "plain" = ("plain", "") := by
  decide

theorem sanity_paths :
    dirname "/d/x.jpg" = "/d" ∧ basename "/d/x.jpg" = "x.jpg" ∧
    dirname "/x" = "/" ∧ dirname "x" = "" ∧
    joinPath "/out" "a" = "/out/a" ∧ joinPath "/out" "/abs" = "/abs" ∧
    relpath "/src/a/b" "/src" = "a/b" ∧ relpath "/src" "/src" = "." ∧
    relpath "/other/c" "/src" = "../other/c" := by
  decide

theorem sanity_parseIntStr :
    parseIntStr "123" = some 123 ∧ parseIntStr "-5" = some (-5) ∧
    parseIntStr " 42 " = some 42 ∧ parseIntStr "12.5" = none ∧
    parseIntStr "" = none ∧ parseIntStr "abc" = none := by
  decide

theorem sanity_fmt_ts :
    fmt_ts 0 = "1970:01:01 00:00:00" ∧
    fmt_ts 1621234567 = "2021:05:17 06:56:07" := by
  decide

theorem sanity_search_case_insensitive :
    search_media [("/album/img_3.JPG", ⟨jpegBytes, none, 0, 0⟩)] "/album"
      "IMG_3.jpg" "edited" = some "/album/img_3.JPG" := by
  decide

theorem sanity_search_prefix_sniff :
    search_media [("/album/IMG_97random.weird", ⟨jpegBytes, none, 0, 0⟩)] "/album"
      "IMG_97" "edited" = some "/album/IMG_97random.weird" := by
  decide

theorem sanity_find_live :
    find_live_video_partner fsC2 "/d" "IMG_1" = some "/d/IMG_1.mov" := by
  decide

theorem sanity_extract_geo :
    extract_metadata [("/d/g.json", ⟨[0x7b],
      some (.obj [("photoTakenTime", .obj [("timestamp", .str "1621234567")]),
        ("geoData", .obj [("latitude", .num 12), ("longitude", .num 34),
          ("altitude", .num 0)])]), 0, 0⟩)] "/d/g.json" =
      .ok ⟨some 1621234567, some (.num 12), some (.num 34), some (.num 0)⟩ := rfl

theorem sanity_build_args_full :
    build_exiftool_args [("/v.mov", ⟨movBytes, none, 0, 0⟩)] "/v.mov"
      ⟨some 1621234567, some (.num 12), some (.num 34), some (.num 0)⟩ =
      ["-api", "QuickTimeUTC=1", "-overwrite_original",
       "-DateTimeOriginal=2021:05:17 06:56:07", "-CreateDate=2021:05:17 06:56:07",
       "-ModifyDate=2021:05:17 06:56:07", "-P", "-FileCreateDate<CreateDate",
       "-FileModifyDate<ModifyDate", "-GPSLatitude=12", "-GPSLongitude=34",
       "-GPSAltitude=0"] := by
  decide

end TakeoutMerge
